import Mathlib

/-!
# TaskFlowAI — verification of the dual-mode data service and task derivation logic

Shallow embedding of the TypeScript sources:

* `src/types.ts` — the data model (`Task`, `EmailContact`, `PlanTemplate`,
  `DailyPlan`, `UserProfile`, …).
* `src/services/databaseService.ts` — the unified data service: local-storage
  CRUD, the remote/local mode decision (`useFirestore`) and the
  try/catch-and-fallback control flow.  Remote (Firebase) primitives are
  external collaborators; each call site is modelled by a `RemoteOutcome`
  parameter saying whether that remote call succeeds or throws.  Operations
  return `Except String _` so that an uncaught remote exception is an
  `.error` and a caught one falls back to local storage.
* `src/App.tsx` — `groupTasks` (bucketing + search filter + per-bucket sort)
  and `getTodayProgress`.
* `src/components/LoginPage.tsx` (AnalyticsView) — `getWeeklyHeatmap`.

Modelling conventions:

* JavaScript `Date` values are integer millisecond timestamps (`Int`).
  `toDateString` equality is modelled as equality of calendar-day indices
  `dayOf t = ⌊t / 86400000⌋` (a fixed-offset timezone).
* An unparseable date string yields an invalid date (`NaN`); a parsed due
  date is therefore `Option Int`, with `none` for `new Date(s)` invalid.
  `NaN < x` is `false` and `"Invalid Date" !== todayStr`, which the
  `Option`-valued predicates reproduce.
* `Array.prototype.sort` is stable (ES2019); it is modelled by
  `List.mergeSort`.  A comparator returning `NaN` is treated by the ES
  `SortCompare` as `+0`, i.e. "equal", which `dueLe` reproduces for tasks
  with invalid due dates.
* JavaScript float arithmetic on the small quantities involved is modelled
  by exact rationals; `Math.round x` is `round x = ⌊x + 1/2⌋`.
-/

namespace TaskFlow

/-! ## Data model (src/types.ts) -/

inductive Priority where
  | LOW | MEDIUM | HIGH | URGENT
deriving DecidableEq, Repr

inductive TaskStatus where
  | TODO | IN_PROGRESS | COMPLETED
deriving DecidableEq, Repr

structure Subtask where
  id : String
  title : String
  isCompleted : Bool
deriving DecidableEq, Repr

/-- `Task` from `src/types.ts`.  `due` is the parsed value of the ISO string
`dueDate` (`none` when the string does not parse as a date); `createdAt` is
always produced by the app itself and hence always parses. -/
structure Task where
  id : String
  userId : String
  title : String
  description : String
  due : Option Int
  priority : Priority
  status : TaskStatus
  createdAt : Int
  calendarEventUrl : Option String := none
  subtasks : List Subtask := []
deriving DecidableEq, Repr

structure UserProfile where
  id : String
  name : String
  email : String
  password : Option String := none
  joinedAt : String
deriving DecidableEq, Repr

structure EmailContact where
  id : String
  userId : String
  address : String
  isActive : Bool
deriving DecidableEq, Repr

structure PlanTemplate where
  id : String
  userId : Option String := none
  label : String
  iconKey : String
  prompt : String
  isCustom : Option Bool := none
deriving DecidableEq, Repr

/-- `type` is one of the literals `task`/`break`/`focus`; kept as a string. -/
structure ScheduleItem where
  time : String
  activity : String
  type : String
  notes : Option String := none
deriving DecidableEq, Repr

structure DailyPlan where
  date : String
  userId : String
  schedule : List ScheduleItem
  notes : String
deriving DecidableEq, Repr

/-! ## Calendar-day model -/

def msPerDay : Int := 86400000

/-- Calendar-day index of a timestamp (`Date.toDateString` equality classes,
fixed-offset timezone). -/
def dayOf (t : Int) : Int := t.fdiv msPerDay

/-- `new Date(due).toDateString() === new Date(now).toDateString()`;
an invalid date prints `"Invalid Date"`, which never equals a day string. -/
def sameDay (due : Option Int) (now : Int) : Bool :=
  match due with
  | none => false
  | some t => dayOf t == dayOf now

/-- `new Date(due) < now`; comparisons on `NaN` are `false`. -/
def beforeNow (due : Option Int) (now : Int) : Bool :=
  match due with
  | none => false
  | some t => t < now

/-! ## Search filter (src/App.tsx, groupTasks lines 189–193) -/

/-- `String.prototype.includes`: `hay.includes needle`. -/
def strIncludes (hay needle : List Char) : Bool :=
  match hay with
  | [] => needle.isEmpty
  | _ :: t => needle.isPrefixOf hay || strIncludes t needle

def lower (s : String) : List Char := s.toList.map Char.toLower

/-- `t.title.toLowerCase().includes(q) || t.description?.toLowerCase().includes(q)` -/
def taskMatches (q : String) (t : Task) : Bool :=
  strIncludes (lower t.title) (lower q) || strIncludes (lower t.description) (lower q)

def filteredTasks (q : String) (tasks : List Task) : List Task :=
  tasks.filter (taskMatches q)

/-! ## Bucketing (src/App.tsx, groupTasks lines 180–221) -/

inductive Bucket where
  | overdue | today | upcoming | completed
deriving DecidableEq, Repr

/-- The branch cascade of the `forEach` body of `groupTasks`. -/
def bucketOf (now : Int) (t : Task) : Bucket :=
  if t.status = .COMPLETED then .completed
  else if beforeNow t.due now && !(sameDay t.due now) then .overdue
  else if sameDay t.due now then .today
  else .upcoming

/-- The (search-filtered) members of one bucket, in original order
(`forEach` pushes in list order). -/
def bucketList (now : Int) (q : String) (tasks : List Task) (b : Bucket) : List Task :=
  (filteredTasks q tasks).filter (fun t => bucketOf now t == b)

/-- Comparator `new Date(a.dueDate).getTime() - new Date(b.dueDate).getTime()`
as a `le` relation: `cmp a b ≤ 0`.  A `NaN` comparator value is treated as
`+0` by the ES `SortCompare`, hence "not greater" on either side. -/
def dueLe (a b : Task) : Bool :=
  match a.due, b.due with
  | some x, some y => x ≤ y
  | _, _ => true

/-- Comparator `new Date(b.createdAt).getTime() - new Date(a.createdAt).getTime()`
(descending by creation time) as a `le` relation. -/
def createdGe (a b : Task) : Bool := b.createdAt ≤ a.createdAt

/-- Due timestamp of a task with a parseable due date (`0` as a junk value
for `none`; only used under a validity hypothesis). -/
def dueN (t : Task) : Int := t.due.getD 0

structure GroupedTasks where
  overdue : List Task
  today : List Task
  upcoming : List Task
  completed : List Task
deriving Repr

/-- `groupTasks` from `src/App.tsx`: search-filter, partition into the four
buckets, sort the three time buckets ascending by due timestamp and the
completed bucket descending by creation timestamp (stable sort). -/
def groupTasks (now : Int) (q : String) (tasks : List Task) : GroupedTasks :=
  { overdue := (bucketList now q tasks .overdue).mergeSort dueLe
    today := (bucketList now q tasks .today).mergeSort dueLe
    upcoming := (bucketList now q tasks .upcoming).mergeSort dueLe
    completed := (bucketList now q tasks .completed).mergeSort createdGe }

/-! ## Today progress (src/App.tsx, getTodayProgress lines 226–238) -/

/-- Tasks whose due date falls on today's calendar date (any status; taken
from the unfiltered task list, as in the source). -/
def todayTasks (now : Int) (tasks : List Task) : List Task :=
  tasks.filter (fun t => sameDay t.due now)

/-- `Math.round((completedToday / todayTasks.length) * 100)`, `0` for an
empty denominator. -/
def getTodayProgress (now : Int) (tasks : List Task) : Int :=
  let tt := todayTasks now tasks
  if tt.length = 0 then 0
  else
    let completedToday := (tt.filter (fun t => t.status = .COMPLETED)).length
    round ((completedToday : ℚ) / (tt.length : ℚ) * 100)

/-! ## Weekly heatmap (src/components/LoginPage.tsx, AnalyticsView) -/

structure HeatEntry where
  day : Int
  count : Nat
  value : ℚ
deriving DecidableEq, Repr

/-- `new Date(t.createdAt).toDateString() === dayStr`. -/
def createdOn (d : Int) (t : Task) : Bool := dayOf t.createdAt == d

/-- `new Date(t.dueDate).toDateString() === dayStr` (an invalid date never
matches a day string). -/
def dueOn (d : Int) (t : Task) : Bool :=
  match t.due with
  | some x => dayOf x == d
  | none => false

/-- Does the task's creation or due timestamp fall on calendar day `d`? -/
def activeOn (d : Int) (t : Task) : Bool :=
  createdOn d t || dueOn d t

/-- `getWeeklyHeatmap`: for `i = 6 … 0`, the day `today - i` with the count
of tasks created or due that day and `min ((count / 8) * 100) 100`. -/
def getWeeklyHeatmap (now : Int) (tasks : List Task) : List HeatEntry :=
  (List.range 7).map fun (j : Nat) =>
    let d : Int := dayOf now - (6 - (j : Int))
    let count := (tasks.filter (activeOn d)).length
    { day := d, count := count, value := min ((count : ℚ) / 8 * 100) 100 }

/-! ## Unified data service (src/services/databaseService.ts)

Local storage is a record of the collections behind the `tf_*` keys.
`currentUser` is the `tf_current_user_profile` entry. -/

structure LocalState where
  tasks : List Task := []
  contacts : List EmailContact := []
  templates : List PlanTemplate := []
  plans : List DailyPlan := []
  users : List UserProfile := []
  currentUser : Option UserProfile := none
deriving DecidableEq, Repr

/-- Process-start configuration: `isReal = isFirebaseConfigured()`, and
`initOk` records whether `initializeApp`/`getFirestore`/`getAuth` succeeded
(on failure the `firestore` and `auth` handles stay undefined). -/
structure ServiceConfig where
  isReal : Bool
  initOk : Bool
deriving DecidableEq, Repr

/-- Truthiness of the module-level `firestore` handle. -/
def firestoreSet (cfg : ServiceConfig) : Bool := cfg.isReal && cfg.initOk

/-- Truthiness of the module-level `auth` handle (set together with
`firestore`). -/
def authSet (cfg : ServiceConfig) : Bool := cfg.isReal && cfg.initOk

/-- `useFirestore(userId)`:
`isReal && firestore && userId && userId !== 'guest-user'`. -/
def useFirestore (cfg : ServiceConfig) (userId : String) : Bool :=
  cfg.isReal && firestoreSet cfg && !(userId == "") && !(userId == "guest-user")

/-- Outcome of one remote (Firebase) call site: the promise either resolves
with a value or rejects (throws). -/
inductive RemoteOutcome (α : Type) where
  | ok (a : α)
  | fail
deriving DecidableEq, Repr

def exceptOk {ε α : Type} : Except ε α → Bool
  | .ok _ => true
  | .error _ => false

/-! ### Per-operation remote/local decisions, exactly as in the source -/

def getTasksUsesRemote (cfg : ServiceConfig) (userId : String) : Bool :=
  useFirestore cfg userId

def addTaskUsesRemote (cfg : ServiceConfig) (t : Task) : Bool :=
  useFirestore cfg t.userId

def updateTaskUsesRemote (cfg : ServiceConfig) (t : Task) : Bool :=
  useFirestore cfg t.userId

/-- `deleteTask` guards with `isReal && firestore` only — no userId. -/
def deleteTaskUsesRemote (cfg : ServiceConfig) : Bool :=
  cfg.isReal && firestoreSet cfg

def clearCompletedUsesRemote (cfg : ServiceConfig) (userId : String) : Bool :=
  useFirestore cfg userId

def getContactsUsesRemote (cfg : ServiceConfig) (userId : String) : Bool :=
  useFirestore cfg userId

def addContactUsesRemote (cfg : ServiceConfig) (c : EmailContact) : Bool :=
  useFirestore cfg c.userId

def updateContactUsesRemote (cfg : ServiceConfig) (c : EmailContact) : Bool :=
  useFirestore cfg c.userId

/-- `deleteContact` guards with `isReal && firestore` only. -/
def deleteContactUsesRemote (cfg : ServiceConfig) : Bool :=
  cfg.isReal && firestoreSet cfg

def getTemplatesUsesRemote (cfg : ServiceConfig) (userId : String) : Bool :=
  useFirestore cfg userId

/-- `addTemplate` guards with `template.userId && useFirestore(template.userId)`. -/
def addTemplateUsesRemote (cfg : ServiceConfig) (tpl : PlanTemplate) : Bool :=
  match tpl.userId with
  | some u => !(u == "") && useFirestore cfg u
  | none => false

/-- `deleteTemplate` guards with `isReal && firestore` only. -/
def deleteTemplateUsesRemote (cfg : ServiceConfig) : Bool :=
  cfg.isReal && firestoreSet cfg

def getDailyPlanUsesRemote (cfg : ServiceConfig) (userId : String) : Bool :=
  useFirestore cfg userId

def saveDailyPlanUsesRemote (cfg : ServiceConfig) (p : DailyPlan) : Bool :=
  useFirestore cfg p.userId

def updateUserProfileUsesRemote (cfg : ServiceConfig) (u : UserProfile) : Bool :=
  useFirestore cfg u.id

/-! ### Local-storage halves of each operation -/

def localGetTasks (userId : String) (tasks : List Task) : List Task :=
  tasks.filter (fun t => t.userId == userId)

/-- `tasks.unshift(task)` prepends. -/
def localAddTask (t : Task) (tasks : List Task) : List Task := t :: tasks

/-- Replace by id when found, else a silent no-op. -/
def localUpdateTask (t : Task) (tasks : List Task) : List Task :=
  match tasks.findIdx? (fun x => x.id == t.id) with
  | some i => tasks.set i t
  | none => tasks

def localDeleteTask (taskId : String) (tasks : List Task) : List Task :=
  tasks.filter (fun t => !(t.id == taskId))

def localClearCompleted (userId : String) (tasks : List Task) : List Task :=
  tasks.filter (fun t => !(t.userId == userId && t.status = .COMPLETED))

def localGetContacts (userId : String) (cs : List EmailContact) : List EmailContact :=
  cs.filter (fun c => c.userId == userId)

/-- `contacts.push(contact)` appends. -/
def localAddContact (c : EmailContact) (cs : List EmailContact) : List EmailContact :=
  cs ++ [c]

def localUpdateContact (c : EmailContact) (cs : List EmailContact) : List EmailContact :=
  match cs.findIdx? (fun x => x.id == c.id) with
  | some i => cs.set i c
  | none => cs

def localDeleteContact (id : String) (cs : List EmailContact) : List EmailContact :=
  cs.filter (fun c => !(c.id == id))

def localGetTemplates (userId : String) (ts : List PlanTemplate) : List PlanTemplate :=
  ts.filter (fun t => t.userId == some userId)

def localAddTemplate (tpl : PlanTemplate) (ts : List PlanTemplate) : List PlanTemplate :=
  ts ++ [tpl]

def localDeleteTemplate (id : String) (ts : List PlanTemplate) : List PlanTemplate :=
  ts.filter (fun t => !(t.id == id))

def planKeyMatches (userId date : String) (p : DailyPlan) : Bool :=
  p.userId == userId && p.date == date

def localGetDailyPlan (userId date : String) (ps : List DailyPlan) : Option DailyPlan :=
  ps.find? (planKeyMatches userId date)

/-- `findIndex` + replace-in-place, else `push`. -/
def localSaveDailyPlan (plan : DailyPlan) (ps : List DailyPlan) : List DailyPlan :=
  match ps.findIdx? (planKeyMatches plan.userId plan.date) with
  | some i => ps.set i plan
  | none => ps ++ [plan]

/-- Recursive reformulation of `localSaveDailyPlan` (replace the first
key match in place, else append); proved equal below. -/
def upsertPlan (plan : DailyPlan) : List DailyPlan → List DailyPlan
  | [] => [plan]
  | p :: rest =>
    if planKeyMatches plan.userId plan.date p then plan :: rest
    else p :: upsertPlan plan rest

/-- Number of stored plans with the given composite key. -/
def planCount (userId date : String) (ps : List DailyPlan) : Nat :=
  (ps.filter (planKeyMatches userId date)).length

/-- The DailyPlan store invariant: at most one plan per `(userId, date)`. -/
def AtMostOnePlan (ps : List DailyPlan) : Prop :=
  ∀ userId date, planCount userId date ps ≤ 1

/-! ### Service operations with fallback-to-local control flow

Each remote call site takes a `RemoteOutcome`; a call site inside
`try {...} catch {}` swallows `.fail` and falls through to the local half,
while an unguarded call site surfaces it as `.error`. -/

def dbGetTasks (cfg : ServiceConfig) (remote : RemoteOutcome (List Task))
    (userId : String) (st : LocalState) : Except String (List Task × LocalState) :=
  if getTasksUsesRemote cfg userId then
    match remote with
    | .ok l => .ok (l, st)
    | .fail => .ok (localGetTasks userId st.tasks, st)
  else .ok (localGetTasks userId st.tasks, st)

def dbAddTask (cfg : ServiceConfig) (remote : RemoteOutcome Unit)
    (t : Task) (st : LocalState) : Except String LocalState :=
  if addTaskUsesRemote cfg t then
    match remote with
    | .ok _ => .ok st
    | .fail => .ok { st with tasks := localAddTask t st.tasks }
  else .ok { st with tasks := localAddTask t st.tasks }

def dbUpdateTask (cfg : ServiceConfig) (remote : RemoteOutcome Unit)
    (t : Task) (st : LocalState) : Except String LocalState :=
  if updateTaskUsesRemote cfg t then
    match remote with
    | .ok _ => .ok st
    | .fail => .ok { st with tasks := localUpdateTask t st.tasks }
  else .ok { st with tasks := localUpdateTask t st.tasks }

def dbDeleteTask (cfg : ServiceConfig) (remote : RemoteOutcome Unit)
    (taskId : String) (st : LocalState) : Except String LocalState :=
  if deleteTaskUsesRemote cfg then
    match remote with
    | .ok _ => .ok st
    | .fail => .ok { st with tasks := localDeleteTask taskId st.tasks }
  else .ok { st with tasks := localDeleteTask taskId st.tasks }

def dbClearCompletedTasks (cfg : ServiceConfig) (remote : RemoteOutcome Unit)
    (userId : String) (st : LocalState) : Except String LocalState :=
  if clearCompletedUsesRemote cfg userId then
    match remote with
    | .ok _ => .ok st
    | .fail => .ok { st with tasks := localClearCompleted userId st.tasks }
  else .ok { st with tasks := localClearCompleted userId st.tasks }

def dbGetContacts (cfg : ServiceConfig) (remote : RemoteOutcome (List EmailContact))
    (userId : String) (st : LocalState) :
    Except String (List EmailContact × LocalState) :=
  if getContactsUsesRemote cfg userId then
    match remote with
    | .ok l => .ok (l, st)
    | .fail => .ok (localGetContacts userId st.contacts, st)
  else .ok (localGetContacts userId st.contacts, st)

def dbAddContact (cfg : ServiceConfig) (remote : RemoteOutcome Unit)
    (c : EmailContact) (st : LocalState) : Except String LocalState :=
  if addContactUsesRemote cfg c then
    match remote with
    | .ok _ => .ok st
    | .fail => .ok { st with contacts := localAddContact c st.contacts }
  else .ok { st with contacts := localAddContact c st.contacts }

def dbUpdateContact (cfg : ServiceConfig) (remote : RemoteOutcome Unit)
    (c : EmailContact) (st : LocalState) : Except String LocalState :=
  if updateContactUsesRemote cfg c then
    match remote with
    | .ok _ => .ok st
    | .fail => .ok { st with contacts := localUpdateContact c st.contacts }
  else .ok { st with contacts := localUpdateContact c st.contacts }

def dbDeleteContact (cfg : ServiceConfig) (remote : RemoteOutcome Unit)
    (id : String) (st : LocalState) : Except String LocalState :=
  if deleteContactUsesRemote cfg then
    match remote with
    | .ok _ => .ok st
    | .fail => .ok { st with contacts := localDeleteContact id st.contacts }
  else .ok { st with contacts := localDeleteContact id st.contacts }

def dbGetCustomTemplates (cfg : ServiceConfig)
    (remote : RemoteOutcome (List PlanTemplate)) (userId : String)
    (st : LocalState) : Except String (List PlanTemplate × LocalState) :=
  if getTemplatesUsesRemote cfg userId then
    match remote with
    | .ok l => .ok (l, st)
    | .fail => .ok (localGetTemplates userId st.templates, st)
  else .ok (localGetTemplates userId st.templates, st)

def dbAddTemplate (cfg : ServiceConfig) (remote : RemoteOutcome Unit)
    (tpl : PlanTemplate) (st : LocalState) : Except String LocalState :=
  if addTemplateUsesRemote cfg tpl then
    match remote with
    | .ok _ => .ok st
    | .fail => .ok { st with templates := localAddTemplate tpl st.templates }
  else .ok { st with templates := localAddTemplate tpl st.templates }

def dbDeleteTemplate (cfg : ServiceConfig) (remote : RemoteOutcome Unit)
    (id : String) (st : LocalState) : Except String LocalState :=
  if deleteTemplateUsesRemote cfg then
    match remote with
    | .ok _ => .ok st
    | .fail => .ok { st with templates := localDeleteTemplate id st.templates }
  else .ok { st with templates := localDeleteTemplate id st.templates }

def dbGetDailyPlan (cfg : ServiceConfig)
    (remote : RemoteOutcome (Option DailyPlan)) (userId date : String)
    (st : LocalState) : Except String (Option DailyPlan × LocalState) :=
  if getDailyPlanUsesRemote cfg userId then
    match remote with
    | .ok p => .ok (p, st)
    | .fail => .ok (localGetDailyPlan userId date st.plans, st)
  else .ok (localGetDailyPlan userId date st.plans, st)

def dbSaveDailyPlan (cfg : ServiceConfig) (remote : RemoteOutcome Unit)
    (plan : DailyPlan) (st : LocalState) : Except String LocalState :=
  if saveDailyPlanUsesRemote cfg plan then
    match remote with
    | .ok _ => .ok st
    | .fail => .ok { st with plans := localSaveDailyPlan plan st.plans }
  else .ok { st with plans := localSaveDailyPlan plan st.plans }

/-- `updateUserProfile`: local write first, then a guarded `setDoc`
whose failure is swallowed. -/
def dbUpdateUserProfile (cfg : ServiceConfig) (remote : RemoteOutcome Unit)
    (user : UserProfile) (st : LocalState) :
    Except String (UserProfile × LocalState) :=
  let st' := { st with currentUser := some user }
  if updateUserProfileUsesRemote cfg user then
    match remote with
    | .ok _ => .ok (user, st')
    | .fail => .ok (user, st')
  else .ok (user, st')

/-! ### Auth operations -/

/-- `registerUser`: in remote mode `createUserWithEmailAndPassword` is not
guarded (a duplicate email rejects and escapes) and the follow-up `setDoc`
is guarded; in local mode a duplicate email throws, otherwise the user is
appended and auto-logged-in.  `freshId` stands for `user_${Date.now()}`. -/
def dbRegisterUser (cfg : ServiceConfig) (remoteAuth : RemoteOutcome String)
    (remoteDoc : RemoteOutcome Unit) (freshId : String) (user : UserProfile)
    (st : LocalState) : Except String (UserProfile × LocalState) :=
  if cfg.isReal && authSet cfg then
    match remoteAuth with
    | .fail => .error "auth/create failed"
    | .ok uid =>
      let profile := { user with id := uid, password := some "" }
      match remoteDoc with
      | .ok _ => .ok (profile, st)
      | .fail => .ok (profile, st)
  else
    if (st.users.find? (fun u => u.email == user.email)).isSome then
      .error "User already exists"
    else
      let newUser := { user with id := freshId }
      .ok (newUser,
        { st with users := st.users ++ [newUser], currentUser := some newUser })

/-- `loginUser`: in remote mode `signInWithEmailAndPassword` is not guarded;
in local mode the demo backdoor `demo@example.com`/`password` resolves to a
guest-id profile, otherwise a user with matching email and password is
looked up and a miss throws.  `nowIso` stands for
`new Date().toISOString()`. -/
def dbLoginUser (cfg : ServiceConfig) (remoteAuth : RemoteOutcome UserProfile)
    (nowIso email pass : String) (st : LocalState) :
    Except String (UserProfile × LocalState) :=
  if cfg.isReal && authSet cfg then
    match remoteAuth with
    | .fail => .error "auth/sign-in failed"
    | .ok p => .ok (p, st)
  else
    if email == "demo@example.com" && pass == "password" then
      let demoUser : UserProfile :=
        { id := "guest-user", name := "Guest User", email := "demo@example.com",
          joinedAt := nowIso }
      .ok (demoUser, { st with currentUser := some demoUser })
    else
      match st.users.find? (fun u => u.email == email && u.password == some pass) with
      | some u => .ok (u, { st with currentUser := some u })
      | none => .error "Invalid credentials"

/-- `resetPassword`: in remote mode `sendPasswordResetEmail` is awaited with
no surrounding try/catch. -/
def dbResetPassword (cfg : ServiceConfig) (remote : RemoteOutcome Unit)
    (_email : String) (st : LocalState) : Except String (Unit × LocalState) :=
  if cfg.isReal && authSet cfg then
    match remote with
    | .fail => .error "auth/reset failed"
    | .ok _ => .ok ((), st)
  else .ok ((), st)

inductive SocialProvider where
  | google | apple | github
deriving DecidableEq, Repr

def providerString : SocialProvider → String
  | .google => "google"
  | .apple => "apple"
  | .github => "github"

def capitalize (s : String) : String :=
  match s.toList with
  | [] => ""
  | c :: rest => String.mk (c.toUpper :: rest)

/-- `socialLogin`: in remote mode a provider object exists for each of the
three provider names, `signInWithPopup` is not guarded, and the follow-up
`setDoc` is guarded; in local mode a simulated profile is stored.
`nowMs` stands for `Date.now()`. -/
def dbSocialLogin (cfg : ServiceConfig) (remotePopup : RemoteOutcome UserProfile)
    (remoteDoc : RemoteOutcome Unit) (nowMs : Int) (nowIso : String)
    (provider : SocialProvider) (st : LocalState) :
    Except String (UserProfile × LocalState) :=
  if cfg.isReal && authSet cfg then
    match remotePopup with
    | .fail => .error "auth/popup failed"
    | .ok p =>
      match remoteDoc with
      | .ok _ => .ok (p, st)
      | .fail => .ok (p, st)
  else
    let ps := providerString provider
    let profile : UserProfile :=
      { id := "social_" ++ ps ++ "_" ++ toString nowMs,
        name := capitalize ps ++ " User",
        email := "user@" ++ ps ++ ".com",
        joinedAt := nowIso }
    .ok (profile, { st with currentUser := some profile })

/-- The mode-selection rule as the spec states it (for comparison with the
per-operation decisions of the code): remote iff the remote backend was
successfully initialized at process start AND the owning userId is not the
guest sentinel. -/
def specModeC1 (cfg : ServiceConfig) (ownerId : String) : Bool :=
  firestoreSet cfg && !(ownerId == "guest-user")

/-- `logout`: in remote mode `signOut` is awaited with no try/catch, and the
local current-user removal only runs if it resolves. -/
def dbLogout (cfg : ServiceConfig) (remote : RemoteOutcome Unit)
    (st : LocalState) : Except String LocalState :=
  if cfg.isReal && authSet cfg then
    match remote with
    | .fail => .error "auth/sign-out failed"
    | .ok _ => .ok { st with currentUser := none }
  else .ok { st with currentUser := none }

/-! ## Sample data for concrete witnesses -/

def tA : Task :=
  { id := "t1", userId := "u1", title := "alpha", description := "first",
    due := some 1, priority := .LOW, status := .TODO, createdAt := 5 }

def tB : Task :=
  { id := "t2", userId := "u1", title := "beta", description := "second",
    due := some 2, priority := .MEDIUM, status := .TODO, createdAt := 3 }

def tC : Task :=
  { id := "t3", userId := "guest-user", title := "gamma", description := "third",
    due := some (-86400000), priority := .HIGH, status := .COMPLETED, createdAt := 7 }

def tBad : Task :=
  { id := "t4", userId := "u1", title := "delta", description := "fourth",
    due := none, priority := .URGENT, status := .IN_PROGRESS, createdAt := 2 }

/-- Three tasks due today (day 0) with exactly one completed. -/
def c4Tasks : List Task :=
  [{ tA with due := some 0, status := .COMPLETED },
   { tB with due := some 100, status := .TODO },
   { tBad with due := some 200, status := .TODO }]

def pl1 : DailyPlan :=
  { date := "2026-01-01", userId := "u1", schedule := [], notes := "draft" }

def pl2 : DailyPlan :=
  { date := "2026-01-01", userId := "u1",
    schedule := [{ time := "09:00 - 10:00", activity := "deep work", type := "focus" }],
    notes := "final" }

/-! ## Helper lemmas -/

theorem find?_eq_head?_filter (p : α → Bool) (l : List α) :
    l.find? p = (l.filter p).head? := by
  induction l with
  | nil => rfl
  | cons a t ih =>
    by_cases h : p a = true
    · rw [List.find?_cons_of_pos t h, List.filter_cons_of_pos h, List.head?_cons]
    · rw [List.find?_cons_of_neg t h, List.filter_cons_of_neg h, ih]

theorem length_filter_or_add (p q : α → Bool) (l : List α) :
    (l.filter fun a => p a || q a).length + (l.filter fun a => p a && q a).length
      = (l.filter p).length + (l.filter q).length := by
  induction l with
  | nil => rfl
  | cons a t ih =>
    cases hp : p a <;> cases hq : q a <;>
      simp [List.filter, hp, hq] <;> omega

/-! ## C9 — deleteTask idempotence -/

/-- C9: `deleteTask` is idempotent in local mode: a second `deleteTask(id)`
produces no error and leaves the store exactly as after the first call, and
after the first call `getTasks` for any user returns no task with that id. -/
theorem c9_deleteTask_idempotent (taskId : String) (ts : List Task) :
    localDeleteTask taskId (localDeleteTask taskId ts) = localDeleteTask taskId ts ∧
    (∀ userId t, t ∈ localGetTasks userId (localDeleteTask taskId ts) → t.id ≠ taskId) ∧
    (∀ cfg remote st, exceptOk (dbDeleteTask cfg remote taskId st) = true) := by
  refine ⟨?_, ?_, ?_⟩
  · simp [localDeleteTask, List.filter_filter]
  · intro userId t ht
    simp only [localGetTasks, localDeleteTask, List.mem_filter,
      Bool.not_eq_true', beq_eq_false_iff_ne, ne_eq] at ht
    exact ht.1.2
  · intro cfg remote st
    unfold dbDeleteTask
    split
    · cases remote <;> rfl
    · rfl

/-- Witness for C9 at a concrete store. -/
theorem c9_witness :
    localDeleteTask "t1" (localDeleteTask "t1" [tA, tB]) =
      localDeleteTask "t1" [tA, tB] ∧ tB.id ≠ "t1" := by
  have h := c9_deleteTask_idempotent "t1" [tA, tB]
  exact ⟨h.1, h.2.1 "u1" tB (by decide)⟩

/-! ## C10 — deleteTask performs no ownership check -/

/-- C10: in local mode `deleteTask(id)` removes a stored task with that id
even when its owning userId differs from the currently active user's id,
and leaves every task with a different id in the store. -/
theorem c10_deleteTask_no_ownership_check (ts : List Task) (taskId : String)
    (activeUserId : String) (t : Task) (hmem : t ∈ ts) :
    (t.id = taskId → t.userId ≠ activeUserId → t ∉ localDeleteTask taskId ts) ∧
    (t.id ≠ taskId → t ∈ localDeleteTask taskId ts) := by
  constructor
  · intro hid _ hcontra
    simp only [localDeleteTask, List.mem_filter, Bool.not_eq_true',
      beq_eq_false_iff_ne, ne_eq] at hcontra
    exact hcontra.2 hid
  · intro hid
    simp only [localDeleteTask, List.mem_filter, Bool.not_eq_true',
      beq_eq_false_iff_ne, ne_eq]
    exact ⟨hmem, hid⟩

/-- Witness for C10: the guest-owned task `tC` is removed by a delete issued
while `u1` is the active user, and the unrelated `tA` survives. -/
theorem c10_witness :
    tC ∉ localDeleteTask "t3" [tA, tC] ∧ tA ∈ localDeleteTask "t3" [tA, tC] := by
  refine ⟨?_, ?_⟩
  · exact (c10_deleteTask_no_ownership_check [tA, tC] "t3" "u1" tC (by decide)).1
      (by decide) (by decide)
  · exact (c10_deleteTask_no_ownership_check [tA, tC] "t3" "u1" tA (by decide)).2
      (by decide)

/-! ## C7 — DailyPlan upsert semantics -/

theorem save_eq_upsert (plan : DailyPlan) (ps : List DailyPlan) :
    localSaveDailyPlan plan ps = upsertPlan plan ps := by
  induction ps with
  | nil => rfl
  | cons p rest ih =>
    unfold localSaveDailyPlan at ih ⊢
    rw [upsertPlan, List.findIdx?_cons]
    by_cases h : planKeyMatches plan.userId plan.date p = true
    · simp [h]
    · simp only [if_neg h, List.findIdx?_succ]
      cases hr : rest.findIdx? (planKeyMatches plan.userId plan.date) with
      | none =>
        rw [hr] at ih
        exact congrArg (fun l => p :: l) ih
      | some i =>
        rw [hr] at ih
        exact congrArg (fun l => p :: l) ih

theorem planKeyMatches_self (plan : DailyPlan) :
    planKeyMatches plan.userId plan.date plan = true := by
  simp [planKeyMatches]

theorem planKeyMatches_congr {plan p : DailyPlan}
    (hp : planKeyMatches plan.userId plan.date p = true) (u d : String) :
    planKeyMatches u d p = planKeyMatches u d plan := by
  simp only [planKeyMatches, Bool.and_eq_true, beq_iff_eq] at hp
  simp [planKeyMatches, hp.1, hp.2]

theorem planCount_nil (u d : String) : planCount u d [] = 0 := rfl

theorem planCount_cons (u d : String) (x : DailyPlan) (l : List DailyPlan) :
    planCount u d (x :: l) =
      (if planKeyMatches u d x = true then 1 else 0) + planCount u d l := by
  by_cases h : planKeyMatches u d x = true
  · simp [planCount, List.filter_cons, h]
    omega
  · simp [planCount, List.filter_cons, h]

theorem planCount_upsert (plan : DailyPlan) (u d : String) (ps : List DailyPlan) :
    planCount u d (upsertPlan plan ps) =
      if planKeyMatches u d plan = true then
        (if planCount u d ps = 0 then 1 else planCount u d ps)
      else planCount u d ps := by
  induction ps with
  | nil =>
    by_cases h : planKeyMatches u d plan = true <;>
      simp [upsertPlan, planCount_cons, planCount_nil, h]
  | cons p rest ih =>
    by_cases hp : planKeyMatches plan.userId plan.date p = true
    · rw [upsertPlan, if_pos hp, planCount_cons, planCount_cons,
        planKeyMatches_congr hp u d]
      by_cases hk : planKeyMatches u d plan = true <;> simp [hk]
    · rw [upsertPlan, if_neg hp, planCount_cons, planCount_cons, ih]
      by_cases hk : planKeyMatches u d plan = true
      · have hpk : planKeyMatches u d p = false := by
          by_contra h'
          rw [Bool.not_eq_false] at h'
          simp only [planKeyMatches, Bool.and_eq_true, beq_iff_eq] at hk h' hp
          exact hp ⟨h'.1.trans hk.1.symm, h'.2.trans hk.2.symm⟩
        simp [hk, hpk]
      · simp [hk]

theorem filter_upsert_self (plan : DailyPlan) (ps : List DailyPlan)
    (hle : planCount plan.userId plan.date ps ≤ 1) :
    (upsertPlan plan ps).filter (planKeyMatches plan.userId plan.date) = [plan] := by
  induction ps with
  | nil => simp [upsertPlan, List.filter_cons, planKeyMatches_self]
  | cons p rest ih =>
    by_cases hp : planKeyMatches plan.userId plan.date p = true
    · have hc : planCount plan.userId plan.date rest = 0 := by
        rw [planCount_cons] at hle
        simp only [hp, if_pos] at hle
        omega
      have hfil : rest.filter (planKeyMatches plan.userId plan.date) = [] :=
        List.eq_nil_of_length_eq_zero hc
      rw [upsertPlan, if_pos hp, List.filter_cons_of_pos (planKeyMatches_self plan),
        hfil]
    · have hle' : planCount plan.userId plan.date rest ≤ 1 := by
        rw [planCount_cons] at hle
        omega
      rw [upsertPlan, if_neg hp, List.filter_cons_of_neg (by simp [hp]), ih hle']

/-- C7: `saveDailyPlan` (local mode) has upsert semantics: it preserves the
at-most-one-plan-per-`(userId, date)` invariant, and saving two plans with
the same key leaves exactly one stored plan for that key — the second one —
which `getDailyPlan` then returns. -/
theorem c7_saveDailyPlan_upsert :
    (∀ (plan : DailyPlan) (ps : List DailyPlan), AtMostOnePlan ps →
        AtMostOnePlan (localSaveDailyPlan plan ps)) ∧
    (∀ (p1 p2 : DailyPlan) (ps : List DailyPlan),
        p1.userId = p2.userId → p1.date = p2.date → AtMostOnePlan ps →
        (localSaveDailyPlan p2 (localSaveDailyPlan p1 ps)).filter
            (planKeyMatches p2.userId p2.date) = [p2] ∧
          localGetDailyPlan p2.userId p2.date
              (localSaveDailyPlan p2 (localSaveDailyPlan p1 ps)) = some p2) := by
  have preserve : ∀ (plan : DailyPlan) (ps : List DailyPlan), AtMostOnePlan ps →
      AtMostOnePlan (localSaveDailyPlan plan ps) := by
    intro plan ps h u d
    rw [save_eq_upsert, planCount_upsert]
    by_cases hk : planKeyMatches u d plan = true
    · by_cases hz : planCount u d ps = 0 <;> simp [hk, hz]
      exact h u d
    · simp only [hk, if_false]
      exact h u d
  refine ⟨preserve, ?_⟩
  intro p1 p2 ps _ _ hs
  have h1 : AtMostOnePlan (localSaveDailyPlan p1 ps) := preserve p1 ps hs
  have hfil : (localSaveDailyPlan p2 (localSaveDailyPlan p1 ps)).filter
      (planKeyMatches p2.userId p2.date) = [p2] := by
    rw [save_eq_upsert p2]
    exact filter_upsert_self p2 _ (h1 p2.userId p2.date)
  refine ⟨hfil, ?_⟩
  rw [localGetDailyPlan, find?_eq_head?_filter, hfil, List.head?_cons]

/-- Witness for C7 at a concrete pair of same-key plans over an empty store. -/
theorem c7_witness :
    (localSaveDailyPlan pl2 (localSaveDailyPlan pl1 [])).filter
        (planKeyMatches pl2.userId pl2.date) = [pl2] ∧
      localGetDailyPlan pl2.userId pl2.date
          (localSaveDailyPlan pl2 (localSaveDailyPlan pl1 [])) = some pl2 ∧
      AtMostOnePlan (localSaveDailyPlan pl1 []) := by
  have h0 : AtMostOnePlan [] := by intro u d; simp [planCount]
  have h := c7_saveDailyPlan_upsert
  exact ⟨(h.2 pl1 pl2 [] rfl rfl h0).1, (h.2 pl1 pl2 [] rfl rfl h0).2,
    h.1 pl1 [] h0⟩

/-! ## C4 — today-progress percentage -/

/-- C4: the today-progress percentage is
`round (100 × completed-today / today-count)` over the tasks whose due
calendar date is today (the today-bucket criterion, completed tasks
included), `0` when there are none; in particular 3 such tasks with exactly
one completed yield 33. -/
theorem c4_today_progress :
    (∀ (now : Int) (tasks : List Task),
        getTodayProgress now tasks =
          if (todayTasks now tasks).length = 0 then 0
          else
            round ((100 : ℚ) *
                (((todayTasks now tasks).filter
                    (fun t => t.status = .COMPLETED)).length : ℚ) /
              ((todayTasks now tasks).length : ℚ))) ∧
    getTodayProgress 0 c4Tasks = 33 := by
  constructor
  · intro now tasks
    simp only [getTodayProgress]
    split_ifs with h
    · rfl
    · congr 1
      ring
  · have h1 : todayTasks 0 c4Tasks = c4Tasks := by decide
    have h2 : (c4Tasks.filter (fun t => t.status = .COMPLETED)).length = 1 := by decide
    have h3 : c4Tasks.length = 3 := by decide
    simp only [getTodayProgress, h1, h2, h3]
    norm_num [round_eq, Int.floor_eq_iff]

/-! ## C6 — weekly heatmap -/

/-- C6: the heatmap has one entry per calendar day for the 7 days ending
today, oldest first (entry `j` is day `today − 6 + j`); each entry counts
the tasks created or due that day (once each, by inclusion–exclusion), and
its value is `min (100 × count / 8) 100`. -/
theorem c6_weekly_heatmap (now : Int) (tasks : List Task) :
    (getWeeklyHeatmap now tasks).length = 7 ∧
    (∀ j : Nat, j < 7 →
      (getWeeklyHeatmap now tasks)[j]? =
        some { day := dayOf now - 6 + j,
               count := (tasks.filter (activeOn (dayOf now - 6 + j))).length,
               value := min
                 (100 * ((tasks.filter (activeOn (dayOf now - 6 + j))).length : ℚ) / 8)
                 100 }) ∧
    (∀ d : Int,
      (tasks.filter (activeOn d)).length +
          (tasks.filter (fun t => createdOn d t && dueOn d t)).length =
        (tasks.filter (createdOn d)).length + (tasks.filter (dueOn d)).length) := by
  refine ⟨?_, ?_, ?_⟩
  · simp only [getWeeklyHeatmap, List.length_map, List.length_range]
  · intro j hj
    simp only [getWeeklyHeatmap, List.getElem?_map, List.getElem?_range hj,
      Option.map_some']
    refine congrArg some ?_
    have h1 : dayOf now - (6 - (j : Int)) = dayOf now - 6 + (j : Int) := by ring
    rw [h1]
    congr 1
    ring_nf
  · intro d
    simpa [activeOn] using length_filter_or_add (createdOn d) (dueOn d) tasks

/-- Witness for C6: the newest entry of the heatmap over `[tA]` at `now = 0`
is day `0` with one active task and value `12.5%`. -/
theorem c6_witness :
    (getWeeklyHeatmap 0 [tA])[6]? = some { day := 0, count := 1, value := 25 / 2 } := by
  have h := (c6_weekly_heatmap 0 [tA]).2.1 6 (by norm_num)
  rw [h]
  have hc : ([tA].filter (activeOn (dayOf 0 - 6 + (6 : Nat)))).length = 1 := by decide
  refine congrArg some ?_
  simp only [HeatEntry.mk.injEq]
  refine ⟨by decide, hc, ?_⟩
  rw [hc]
  norm_num [min_def]

/-! ## C3 / C8 — bucketing -/

theorem dayOf_mono {a b : Int} (h : a ≤ b) : dayOf a ≤ dayOf b := by
  unfold dayOf
  rw [Int.fdiv_eq_ediv _ (by norm_num [msPerDay]),
    Int.fdiv_eq_ediv _ (by norm_num [msPerDay])]
  exact Int.ediv_le_ediv (by norm_num [msPerDay]) h

theorem mem_sorted_bucket (le : Task → Task → Bool) (now : Int) (q : String)
    (tasks : List Task) (b : Bucket) (t : Task) :
    t ∈ (bucketList now q tasks b).mergeSort le ↔
      t ∈ filteredTasks q tasks ∧ bucketOf now t = b := by
  rw [List.mem_mergeSort, bucketList, List.mem_filter]
  simp

theorem bucketOf_completed_iff (now : Int) (t : Task) :
    bucketOf now t = .completed ↔ t.status = .COMPLETED := by
  unfold bucketOf
  split_ifs <;> simp_all

theorem bucketOf_overdue_iff (now : Int) (t : Task) :
    bucketOf now t = .overdue ↔
      t.status ≠ .COMPLETED ∧ beforeNow t.due now = true ∧
        sameDay t.due now = false := by
  unfold bucketOf
  split_ifs with h1 h2 h3 <;> simp_all

theorem bucketOf_today_iff (now : Int) (t : Task) :
    bucketOf now t = .today ↔
      t.status ≠ .COMPLETED ∧ sameDay t.due now = true := by
  unfold bucketOf
  split_ifs with h1 h2 h3 <;> simp_all

theorem bucketOf_upcoming_iff (now : Int) (t : Task) :
    bucketOf now t = .upcoming ↔
      t.status ≠ .COMPLETED ∧ beforeNow t.due now = false ∧
        sameDay t.due now = false := by
  unfold bucketOf
  split_ifs with h1 h2 h3 <;> simp_all

theorem bucket_totality (now : Int) (q : String) (tasks : List Task) :
    ∀ t ∈ filteredTasks q tasks,
      t ∈ (groupTasks now q tasks).overdue ∨ t ∈ (groupTasks now q tasks).today ∨
        t ∈ (groupTasks now q tasks).upcoming ∨
          t ∈ (groupTasks now q tasks).completed := by
  intro t ht
  have ho := mem_sorted_bucket dueLe now q tasks .overdue t
  have hto := mem_sorted_bucket dueLe now q tasks .today t
  have hu := mem_sorted_bucket dueLe now q tasks .upcoming t
  have hc := mem_sorted_bucket createdGe now q tasks .completed t
  cases hb : bucketOf now t with
  | overdue => exact Or.inl (ho.mpr ⟨ht, hb⟩)
  | today => exact Or.inr (Or.inl (hto.mpr ⟨ht, hb⟩))
  | upcoming => exact Or.inr (Or.inr (Or.inl (hu.mpr ⟨ht, hb⟩)))
  | completed => exact Or.inr (Or.inr (Or.inr (hc.mpr ⟨ht, hb⟩)))

/-- C3: for a fixed `now`, the (search-filtered) tasks are partitioned:
a COMPLETED task lands in `completed` regardless of due date; a
non-completed task with due timestamp before `now` and a due calendar day
other than today lands in `overdue`; a non-completed task due on today's
calendar day lands in `today` even when its time-of-day has passed; any
other non-completed task — in particular one whose due calendar day is
after today's — lands in `upcoming`; and no task lands in two buckets. -/
theorem c3_bucket_partition (now : Int) (q : String) (tasks : List Task) (t : Task) :
    (t ∈ (groupTasks now q tasks).completed ↔
      t ∈ filteredTasks q tasks ∧ t.status = .COMPLETED) ∧
    (t ∈ (groupTasks now q tasks).overdue ↔
      t ∈ filteredTasks q tasks ∧ t.status ≠ .COMPLETED ∧
        beforeNow t.due now = true ∧ sameDay t.due now = false) ∧
    (t ∈ (groupTasks now q tasks).today ↔
      t ∈ filteredTasks q tasks ∧ t.status ≠ .COMPLETED ∧
        sameDay t.due now = true) ∧
    (t ∈ (groupTasks now q tasks).upcoming ↔
      t ∈ filteredTasks q tasks ∧ t.status ≠ .COMPLETED ∧
        beforeNow t.due now = false ∧ sameDay t.due now = false) ∧
    (∀ d : Int, t.due = some d → t.status ≠ .COMPLETED →
      t ∈ filteredTasks q tasks → dayOf now < dayOf d →
      t ∈ (groupTasks now q tasks).upcoming) ∧
    (t ∈ filteredTasks q tasks →
      t ∈ (groupTasks now q tasks).overdue ∨ t ∈ (groupTasks now q tasks).today ∨
        t ∈ (groupTasks now q tasks).upcoming ∨
          t ∈ (groupTasks now q tasks).completed) ∧
    ¬(t ∈ (groupTasks now q tasks).overdue ∧ t ∈ (groupTasks now q tasks).today) ∧
    ¬(t ∈ (groupTasks now q tasks).overdue ∧ t ∈ (groupTasks now q tasks).upcoming) ∧
    ¬(t ∈ (groupTasks now q tasks).overdue ∧ t ∈ (groupTasks now q tasks).completed) ∧
    ¬(t ∈ (groupTasks now q tasks).today ∧ t ∈ (groupTasks now q tasks).upcoming) ∧
    ¬(t ∈ (groupTasks now q tasks).today ∧ t ∈ (groupTasks now q tasks).completed) ∧
    ¬(t ∈ (groupTasks now q tasks).upcoming ∧
        t ∈ (groupTasks now q tasks).completed) := by
  have ho := mem_sorted_bucket dueLe now q tasks .overdue t
  have hto := mem_sorted_bucket dueLe now q tasks .today t
  have hu := mem_sorted_bucket dueLe now q tasks .upcoming t
  have hc := mem_sorted_bucket createdGe now q tasks .completed t
  have Ho : t ∈ (groupTasks now q tasks).overdue ↔
      t ∈ filteredTasks q tasks ∧ bucketOf now t = .overdue := ho
  have Hto : t ∈ (groupTasks now q tasks).today ↔
      t ∈ filteredTasks q tasks ∧ bucketOf now t = .today := hto
  have Hu : t ∈ (groupTasks now q tasks).upcoming ↔
      t ∈ filteredTasks q tasks ∧ bucketOf now t = .upcoming := hu
  have Hc : t ∈ (groupTasks now q tasks).completed ↔
      t ∈ filteredTasks q tasks ∧ bucketOf now t = .completed := hc
  refine ⟨?_, ?_, ?_, ?_, ?_, bucket_totality now q tasks t, ?_, ?_, ?_, ?_, ?_, ?_⟩
  · rw [Hc, bucketOf_completed_iff]
  · rw [Ho, bucketOf_overdue_iff]
  · rw [Hto, bucketOf_today_iff]
  · rw [Hu, bucketOf_upcoming_iff]
  · intro d hd hst hmem hgt
    rw [Hu, bucketOf_upcoming_iff]
    have hnlt : ¬ d < now := fun hlt =>
      absurd (dayOf_mono (le_of_lt hlt)) (not_le.mpr hgt)
    have hne : ¬ dayOf d = dayOf now := by omega
    refine ⟨hmem, hst, ?_, ?_⟩
    · simp [beforeNow, hd, hnlt]
    · simp [sameDay, hd, hne]
  · rw [Ho, Hto]
    rintro ⟨⟨-, h1⟩, ⟨-, h2⟩⟩
    simp [h1] at h2
  · rw [Ho, Hu]
    rintro ⟨⟨-, h1⟩, ⟨-, h2⟩⟩
    simp [h1] at h2
  · rw [Ho, Hc]
    rintro ⟨⟨-, h1⟩, ⟨-, h2⟩⟩
    simp [h1] at h2
  · rw [Hto, Hu]
    rintro ⟨⟨-, h1⟩, ⟨-, h2⟩⟩
    simp [h1] at h2
  · rw [Hto, Hc]
    rintro ⟨⟨-, h1⟩, ⟨-, h2⟩⟩
    simp [h1] at h2
  · rw [Hu, Hc]
    rintro ⟨⟨-, h1⟩, ⟨-, h2⟩⟩
    simp [h1] at h2

/-- Witness for C3: with `now` on day −1, the TODO task `tB` due on day 0
(after today) lands in the `upcoming` bucket. -/
theorem c3_witness :
    tB ∈ (groupTasks (-86400000) "" [tB]).upcoming := by
  exact (c3_bucket_partition (-86400000) "" [tB] tB).2.2.2.2.1 2 rfl
    (by decide) (by decide) (by decide)

/-- C8: a non-completed task whose due-date string does not parse (an
invalid date) is still bucketed — the grouping is total on the filtered
tasks — and it lands in the `upcoming` bucket. -/
theorem c8_invalid_due_is_upcoming (now : Int) (q : String) (tasks : List Task)
    (t : Task) (hmem : t ∈ filteredTasks q tasks) (hstat : t.status ≠ .COMPLETED)
    (hdue : t.due = none) :
    t ∈ (groupTasks now q tasks).upcoming ∧
    (∀ t' ∈ filteredTasks q tasks,
      t' ∈ (groupTasks now q tasks).overdue ∨ t' ∈ (groupTasks now q tasks).today ∨
        t' ∈ (groupTasks now q tasks).upcoming ∨
          t' ∈ (groupTasks now q tasks).completed) := by
  refine ⟨?_, bucket_totality now q tasks⟩
  have Hu : t ∈ (groupTasks now q tasks).upcoming ↔
      t ∈ filteredTasks q tasks ∧ bucketOf now t = .upcoming :=
    mem_sorted_bucket dueLe now q tasks .upcoming t
  rw [Hu, bucketOf_upcoming_iff]
  refine ⟨hmem, hstat, ?_, ?_⟩
  · simp [beforeNow, hdue]
  · simp [sameDay, hdue]

/-- Witness for C8: the invalid-date task `tBad` is bucketed as upcoming. -/
theorem c8_witness :
    tBad ∈ (groupTasks 0 "" [tBad]).upcoming := by
  exact (c8_invalid_due_is_upcoming 0 "" [tBad] tBad (by decide) (by decide) rfl).1

/-! ## C5 — per-bucket sort order and stability

`Array.prototype.sort` (ES2019) is a stable sort; the comparator relations
`dueLe`/`createdGe` model `SortCompare` over the JS comparators.  `dueLe` is
not transitive on tasks with invalid due dates (a `NaN` comparator value
compares equal to everything), so the sortedness statements assume all due
dates parse — matching the spec, which speaks of sorting by due timestamp. -/

theorem createdGe_trans (a b c : Task) (hab : createdGe a b = true)
    (hbc : createdGe b c = true) : createdGe a c = true := by
  simp only [createdGe, decide_eq_true_eq] at *
  omega

theorem createdGe_total (a b : Task) : createdGe a b || createdGe b a := by
  simp only [createdGe, Bool.or_eq_true, decide_eq_true_eq]
  omega

theorem sorted_mergeSort_of_mem {α : Type} (le : α → α → Bool) (l : List α)
    (htrans : ∀ a ∈ l, ∀ b ∈ l, ∀ c ∈ l,
      le a b = true → le b c = true → le a c = true)
    (htotal : ∀ a ∈ l, ∀ b ∈ l, le a b || le b a) :
    (l.mergeSort le).Pairwise (fun a b => le a b = true) := by
  have hmap : l.attach.map Subtype.val = l := by
    simp [List.attach_map_val l id]
  have h1 : (l.attach.mergeSort fun a b => le a.1 b.1).map Subtype.val =
      (l.attach.map Subtype.val).mergeSort le :=
    List.map_mergeSort (fun a _ b _ => rfl)
  rw [hmap] at h1
  have h2 : (l.attach.mergeSort fun a b => le a.1 b.1).Pairwise
      (fun a b => le a.1 b.1 = true) := by
    exact List.sorted_mergeSort
      (fun a b c hab hbc => htrans a.1 a.2 b.1 b.2 c.1 c.2 hab hbc)
      (fun a b => htotal a.1 a.2 b.1 b.2) l.attach
  rw [← h1]
  exact (List.pairwise_map).mpr h2

theorem pair_sublist_mergeSort_of_mem {α : Type} (le : α → α → Bool) (l : List α)
    (htrans : ∀ a ∈ l, ∀ b ∈ l, ∀ c ∈ l,
      le a b = true → le b c = true → le a c = true)
    (htotal : ∀ a ∈ l, ∀ b ∈ l, le a b || le b a)
    (a b : α) (hab : le a b = true) (hsub : List.Sublist [a, b] l) :
    List.Sublist [a, b] (l.mergeSort le) := by
  have hmap : l.attach.map Subtype.val = l := by
    simp [List.attach_map_val l id]
  have h1 : (l.attach.mergeSort fun x y => le x.1 y.1).map Subtype.val =
      (l.attach.map Subtype.val).mergeSort le :=
    List.map_mergeSort (fun x _ y _ => rfl)
  rw [hmap] at h1
  have hsub' : List.Sublist [a, b] (l.attach.map Subtype.val) := by
    rw [hmap]; exact hsub
  obtain ⟨r, hr, hre⟩ := List.sublist_map_iff.mp hsub'
  match r, hre with
  | [x, y], hre =>
    simp only [List.map_cons, List.map_nil, List.cons.injEq, and_true] at hre
    obtain ⟨hx, hy⟩ := hre
    have hab' : le x.1 y.1 = true := by rw [← hx, ← hy]; exact hab
    have h3 : List.Sublist [x, y] (l.attach.mergeSort fun u v => le u.1 v.1) :=
      List.pair_sublist_mergeSort
        (fun u v w huv hvw => htrans u.1 u.2 v.1 v.2 w.1 w.2 huv hvw)
        (fun u v => htotal u.1 u.2 v.1 v.2) hab' hr
    have h4 := h3.map Subtype.val
    rw [h1] at h4
    simpa [← hx, ← hy] using h4

theorem mem_of_mem_bucketList {now : Int} {q : String} {tasks : List Task}
    {b : Bucket} {t : Task} (h : t ∈ bucketList now q tasks b) : t ∈ tasks := by
  simp only [bucketList, filteredTasks, List.mem_filter] at h
  exact h.1.1

theorem dueLe_trans_of_valid {tasks : List Task}
    (hvalid : ∀ t ∈ tasks, t.due ≠ none) {now : Int} {q : String} {b : Bucket} :
    ∀ x ∈ bucketList now q tasks b, ∀ y ∈ bucketList now q tasks b,
      ∀ z ∈ bucketList now q tasks b,
      dueLe x y = true → dueLe y z = true → dueLe x z = true := by
  intro x hx y hy z hz hxy hyz
  obtain ⟨dx, hdx⟩ := Option.ne_none_iff_exists'.mp
    (hvalid x (mem_of_mem_bucketList hx))
  obtain ⟨dy, hdy⟩ := Option.ne_none_iff_exists'.mp
    (hvalid y (mem_of_mem_bucketList hy))
  obtain ⟨dz, hdz⟩ := Option.ne_none_iff_exists'.mp
    (hvalid z (mem_of_mem_bucketList hz))
  simp only [dueLe, hdx, hdy, hdz, decide_eq_true_eq] at *
  omega

theorem dueLe_total_all (x y : Task) : dueLe x y || dueLe y x := by
  unfold dueLe
  cases x.due <;> cases y.due <;> simp
  omega

/-- C5: with every due date parseable, the `overdue`/`today`/`upcoming`
buckets are sorted ascending by due timestamp and `completed` descending by
creation timestamp, and equal-key tasks keep their original relative order
(stable sort). -/
theorem c5_bucket_sorting (now : Int) (q : String) (tasks : List Task)
    (hvalid : ∀ t ∈ tasks, t.due ≠ none) :
    ((groupTasks now q tasks).overdue.Pairwise fun a b => dueN a ≤ dueN b) ∧
    ((groupTasks now q tasks).today.Pairwise fun a b => dueN a ≤ dueN b) ∧
    ((groupTasks now q tasks).upcoming.Pairwise fun a b => dueN a ≤ dueN b) ∧
    ((groupTasks now q tasks).completed.Pairwise
        fun a b => b.createdAt ≤ a.createdAt) ∧
    (∀ a c : Task, dueN a = dueN c →
      (List.Sublist [a, c] (bucketList now q tasks .overdue) →
        List.Sublist [a, c] (groupTasks now q tasks).overdue) ∧
      (List.Sublist [a, c] (bucketList now q tasks .today) →
        List.Sublist [a, c] (groupTasks now q tasks).today) ∧
      (List.Sublist [a, c] (bucketList now q tasks .upcoming) →
        List.Sublist [a, c] (groupTasks now q tasks).upcoming)) ∧
    (∀ a c : Task, a.createdAt = c.createdAt →
      List.Sublist [a, c] (bucketList now q tasks .completed) →
      List.Sublist [a, c] (groupTasks now q tasks).completed) := by
  have hsorted : ∀ b : Bucket,
      ((bucketList now q tasks b).mergeSort dueLe).Pairwise
        (fun a c => dueN a ≤ dueN c) := by
    intro b
    have hp := sorted_mergeSort_of_mem dueLe (bucketList now q tasks b)
      (dueLe_trans_of_valid hvalid)
      (fun x _ y _ => dueLe_total_all x y)
    refine hp.imp_of_mem ?_
    intro a c ha hc hle
    have ha' := mem_of_mem_bucketList (List.mem_mergeSort.mp ha)
    have hc' := mem_of_mem_bucketList (List.mem_mergeSort.mp hc)
    obtain ⟨da, hda⟩ := Option.ne_none_iff_exists'.mp (hvalid a ha')
    obtain ⟨dc, hdc⟩ := Option.ne_none_iff_exists'.mp (hvalid c hc')
    simp only [dueLe, hda, hdc, decide_eq_true_eq] at hle
    simp [dueN, hda, hdc, hle]
  have hstable : ∀ b : Bucket, ∀ a c : Task, dueN a = dueN c →
      List.Sublist [a, c] (bucketList now q tasks b) →
      List.Sublist [a, c] ((bucketList now q tasks b).mergeSort dueLe) := by
    intro b a c heq hsub
    have ha : a ∈ bucketList now q tasks b := hsub.subset (by simp)
    have hc : c ∈ bucketList now q tasks b := hsub.subset (by simp)
    obtain ⟨da, hda⟩ := Option.ne_none_iff_exists'.mp
      (hvalid a (mem_of_mem_bucketList ha))
    obtain ⟨dc, hdc⟩ := Option.ne_none_iff_exists'.mp
      (hvalid c (mem_of_mem_bucketList hc))
    have hle : dueLe a c = true := by
      simp only [dueN, hda, hdc, Option.getD_some] at heq
      simp [dueLe, hda, hdc, heq]
    exact pair_sublist_mergeSort_of_mem dueLe _ (dueLe_trans_of_valid hvalid)
      (fun x _ y _ => dueLe_total_all x y) a c hle hsub
  refine ⟨hsorted .overdue, hsorted .today, hsorted .upcoming, ?_, ?_, ?_⟩
  · have hp : ((bucketList now q tasks .completed).mergeSort createdGe).Pairwise
        (fun a b => createdGe a b = true) :=
      List.sorted_mergeSort createdGe_trans
        createdGe_total (bucketList now q tasks .completed)
    refine hp.imp ?_
    intro a c h
    simpa [createdGe] using h
  · intro a c heq
    exact ⟨hstable .overdue a c heq, hstable .today a c heq,
      hstable .upcoming a c heq⟩
  · intro a c heq hsub
    have hle : createdGe a c = true := by simp [createdGe, heq]
    exact List.pair_sublist_mergeSort createdGe_trans createdGe_total hle hsub

/-- Witness for C5: two today-bucket tasks with equal due timestamps keep
their original order in the sorted output. -/
theorem c5_witness :
    List.Sublist [({ tA with due := some 7 } : Task), ({ tB with due := some 7 } : Task)]
      (groupTasks 0 "" [{ tA with due := some 7 }, { tB with due := some 7 }]).today := by
  have h := c5_bucket_sorting 0 "" [{ tA with due := some 7 }, { tB with due := some 7 }]
    (by decide)
  refine (h.2.2.2.2.1 ({ tA with due := some 7 }) ({ tB with due := some 7 })
    (by decide)).2.1 ?_
  have : bucketList 0 "" [({ tA with due := some 7 } : Task), { tB with due := some 7 }]
      .today = [{ tA with due := some 7 }, { tB with due := some 7 }] := by decide
  rw [this]

/-! ## C1 — remote/local mode selection -/

theorem useFirestore_eq (cfg : ServiceConfig) (u : String) :
    useFirestore cfg u =
      (firestoreSet cfg && !(u == "") && !(u == "guest-user")) := by
  rcases cfg with ⟨r, i⟩
  cases r <;> cases i <;> simp [useFirestore, firestoreSet]

/-- C1 counterexample: with the remote backend initialized, the id-only
delete operations attempt remote mode even when the involved entity is
owned by the guest sentinel, although the spec's rule selects local mode
there; the successful remote `deleteTask` also leaves the guest-owned task
sitting in the local store, whereas the spec's local-mode delete removes
it. -/
theorem c1_counterexample :
    deleteTaskUsesRemote ⟨true, true⟩ = true ∧
    deleteContactUsesRemote ⟨true, true⟩ = true ∧
    deleteTemplateUsesRemote ⟨true, true⟩ = true ∧
    specModeC1 ⟨true, true⟩ "guest-user" = false ∧
    dbDeleteTask ⟨true, true⟩ (.ok ()) "t3" { tasks := [tC] } =
      .ok { tasks := [tC] } ∧
    dbDeleteTask ⟨false, false⟩ (.ok ()) "t3" { tasks := [tC] } =
      .ok { tasks := [] } := by
  refine ⟨rfl, rfl, rfl, rfl, rfl, ?_⟩
  have h : localDeleteTask "t3" [tC] = [] := by decide
  simp [dbDeleteTask, deleteTaskUsesRemote, firestoreSet, h]

/-- C1 amended: every operation that receives an owning userId (directly
or through its entity) re-evaluates, on each call, remote mode iff the
remote backend initialized AND the userId is nonempty AND not the guest
sentinel; the id-only operations `deleteTask`, `deleteContact` and
`deleteTemplate` instead use remote mode iff the backend initialized,
with no ownership condition at all. -/
theorem c1_mode_selection :
    (∀ (cfg : ServiceConfig) (u : String),
      getTasksUsesRemote cfg u =
        (firestoreSet cfg && !(u == "") && !(u == "guest-user"))) ∧
    (∀ (cfg : ServiceConfig) (t : Task),
      addTaskUsesRemote cfg t =
        (firestoreSet cfg && !(t.userId == "") && !(t.userId == "guest-user"))) ∧
    (∀ (cfg : ServiceConfig) (t : Task),
      updateTaskUsesRemote cfg t =
        (firestoreSet cfg && !(t.userId == "") && !(t.userId == "guest-user"))) ∧
    (∀ (cfg : ServiceConfig) (u : String),
      clearCompletedUsesRemote cfg u =
        (firestoreSet cfg && !(u == "") && !(u == "guest-user"))) ∧
    (∀ (cfg : ServiceConfig) (u : String),
      getContactsUsesRemote cfg u =
        (firestoreSet cfg && !(u == "") && !(u == "guest-user"))) ∧
    (∀ (cfg : ServiceConfig) (c : EmailContact),
      addContactUsesRemote cfg c =
        (firestoreSet cfg && !(c.userId == "") && !(c.userId == "guest-user"))) ∧
    (∀ (cfg : ServiceConfig) (c : EmailContact),
      updateContactUsesRemote cfg c =
        (firestoreSet cfg && !(c.userId == "") && !(c.userId == "guest-user"))) ∧
    (∀ (cfg : ServiceConfig) (u : String),
      getTemplatesUsesRemote cfg u =
        (firestoreSet cfg && !(u == "") && !(u == "guest-user"))) ∧
    (∀ (cfg : ServiceConfig) (tpl : PlanTemplate),
      addTemplateUsesRemote cfg tpl =
        (match tpl.userId with
         | some u => firestoreSet cfg && !(u == "") && !(u == "guest-user")
         | none => false)) ∧
    (∀ (cfg : ServiceConfig) (u : String),
      getDailyPlanUsesRemote cfg u =
        (firestoreSet cfg && !(u == "") && !(u == "guest-user"))) ∧
    (∀ (cfg : ServiceConfig) (p : DailyPlan),
      saveDailyPlanUsesRemote cfg p =
        (firestoreSet cfg && !(p.userId == "") && !(p.userId == "guest-user"))) ∧
    (∀ (cfg : ServiceConfig) (u : UserProfile),
      updateUserProfileUsesRemote cfg u =
        (firestoreSet cfg && !(u.id == "") && !(u.id == "guest-user"))) ∧
    (∀ cfg : ServiceConfig, deleteTaskUsesRemote cfg = firestoreSet cfg) ∧
    (∀ cfg : ServiceConfig, deleteContactUsesRemote cfg = firestoreSet cfg) ∧
    (∀ cfg : ServiceConfig, deleteTemplateUsesRemote cfg = firestoreSet cfg) := by
  have hdel : ∀ cfg : ServiceConfig,
      (cfg.isReal && firestoreSet cfg) = firestoreSet cfg := by
    rintro ⟨r, i⟩
    cases r <;> cases i <;> simp [firestoreSet]
  refine ⟨fun cfg u => useFirestore_eq cfg u, fun cfg t => useFirestore_eq cfg t.userId,
    fun cfg t => useFirestore_eq cfg t.userId, fun cfg u => useFirestore_eq cfg u,
    fun cfg u => useFirestore_eq cfg u, fun cfg c => useFirestore_eq cfg c.userId,
    fun cfg c => useFirestore_eq cfg c.userId, fun cfg u => useFirestore_eq cfg u,
    ?_, fun cfg u => useFirestore_eq cfg u, fun cfg p => useFirestore_eq cfg p.userId,
    fun cfg u => useFirestore_eq cfg u.id, fun cfg => hdel cfg, fun cfg => hdel cfg,
    fun cfg => hdel cfg⟩
  intro cfg tpl
  unfold addTemplateUsesRemote
  cases tpl.userId with
  | none => rfl
  | some u =>
    show (!(u == "") && useFirestore cfg u) =
      (firestoreSet cfg && !(u == "") && !(u == "guest-user"))
    rw [useFirestore_eq]
    cases hx : (u == "") <;> cases hy : (u == "guest-user") <;>
      cases hz : firestoreSet cfg <;> simp [hx, hy, hz]

/-! ## C2 — failure boundaries of the service -/

/-- C2 counterexample: in remote mode a rejecting remote auth call escapes
`resetPassword`, `socialLogin` and `logout` — operations the claim says
never surface an error. -/
theorem c2_counterexample :
    exceptOk (dbResetPassword ⟨true, true⟩ .fail "user@example.com" {}) = false ∧
    exceptOk (dbSocialLogin ⟨true, true⟩ .fail (.ok ()) 0 "2026-01-01T00:00:00Z"
      .google {}) = false ∧
    exceptOk (dbLogout ⟨true, true⟩ .fail {}) = false :=
  ⟨rfl, rfl, rfl⟩

/-- C2 amended: all entity CRUD operations and `updateUserProfile` never
let an exception escape (they degrade to local storage); `registerUser`
and `loginUser` surface their documented validation failures; and in
remote mode `resetPassword`, `socialLogin` and `logout` additionally
surface a rejected remote auth call. -/
theorem c2_failure_boundaries :
    (∀ cfg r u st, exceptOk (dbGetTasks cfg r u st) = true) ∧
    (∀ cfg r t st, exceptOk (dbAddTask cfg r t st) = true) ∧
    (∀ cfg r t st, exceptOk (dbUpdateTask cfg r t st) = true) ∧
    (∀ cfg r id st, exceptOk (dbDeleteTask cfg r id st) = true) ∧
    (∀ cfg r u st, exceptOk (dbClearCompletedTasks cfg r u st) = true) ∧
    (∀ cfg r u st, exceptOk (dbGetContacts cfg r u st) = true) ∧
    (∀ cfg r c st, exceptOk (dbAddContact cfg r c st) = true) ∧
    (∀ cfg r c st, exceptOk (dbUpdateContact cfg r c st) = true) ∧
    (∀ cfg r id st, exceptOk (dbDeleteContact cfg r id st) = true) ∧
    (∀ cfg r u st, exceptOk (dbGetCustomTemplates cfg r u st) = true) ∧
    (∀ cfg r tpl st, exceptOk (dbAddTemplate cfg r tpl st) = true) ∧
    (∀ cfg r id st, exceptOk (dbDeleteTemplate cfg r id st) = true) ∧
    (∀ cfg r u d st, exceptOk (dbGetDailyPlan cfg r u d st) = true) ∧
    (∀ cfg r p st, exceptOk (dbSaveDailyPlan cfg r p st) = true) ∧
    (∀ cfg r u st, exceptOk (dbUpdateUserProfile cfg r u st) = true) ∧
    (∀ cfg r e st, exceptOk (dbResetPassword cfg r e st) = false ↔
      (cfg.isReal = true ∧ cfg.initOk = true ∧ r = RemoteOutcome.fail)) ∧
    (∀ cfg rp rd ms iso p st,
      exceptOk (dbSocialLogin cfg rp rd ms iso p st) = false ↔
        (cfg.isReal = true ∧ cfg.initOk = true ∧ rp = RemoteOutcome.fail)) ∧
    (∀ cfg r st, exceptOk (dbLogout cfg r st) = false ↔
      (cfg.isReal = true ∧ cfg.initOk = true ∧ r = RemoteOutcome.fail)) ∧
    (∀ cfg ra rd fid u st, exceptOk (dbRegisterUser cfg ra rd fid u st) = false ↔
      ((cfg.isReal = true ∧ cfg.initOk = true ∧ ra = RemoteOutcome.fail) ∨
        (¬(cfg.isReal = true ∧ cfg.initOk = true) ∧
          (st.users.find? (fun v => v.email == u.email)).isSome = true))) ∧
    (∀ cfg ra iso e p st, exceptOk (dbLoginUser cfg ra iso e p st) = false ↔
      ((cfg.isReal = true ∧ cfg.initOk = true ∧ ra = RemoteOutcome.fail) ∨
        (¬(cfg.isReal = true ∧ cfg.initOk = true) ∧
          (e == "demo@example.com" && p == "password") = false ∧
          st.users.find? (fun v => v.email == e && v.password == some p) =
            none))) := by
  refine ⟨?_, ?_, ?_, ?_, ?_, ?_, ?_, ?_, ?_, ?_, ?_, ?_, ?_, ?_, ?_, ?_, ?_, ?_,
    ?_, ?_⟩
  · intro cfg r u st
    unfold dbGetTasks
    split
    · cases r <;> rfl
    · rfl
  · intro cfg r t st
    unfold dbAddTask
    split
    · cases r <;> rfl
    · rfl
  · intro cfg r t st
    unfold dbUpdateTask
    split
    · cases r <;> rfl
    · rfl
  · intro cfg r id st
    unfold dbDeleteTask
    split
    · cases r <;> rfl
    · rfl
  · intro cfg r u st
    unfold dbClearCompletedTasks
    split
    · cases r <;> rfl
    · rfl
  · intro cfg r u st
    unfold dbGetContacts
    split
    · cases r <;> rfl
    · rfl
  · intro cfg r c st
    unfold dbAddContact
    split
    · cases r <;> rfl
    · rfl
  · intro cfg r c st
    unfold dbUpdateContact
    split
    · cases r <;> rfl
    · rfl
  · intro cfg r id st
    unfold dbDeleteContact
    split
    · cases r <;> rfl
    · rfl
  · intro cfg r u st
    unfold dbGetCustomTemplates
    split
    · cases r <;> rfl
    · rfl
  · intro cfg r tpl st
    unfold dbAddTemplate
    split
    · cases r <;> rfl
    · rfl
  · intro cfg r id st
    unfold dbDeleteTemplate
    split
    · cases r <;> rfl
    · rfl
  · intro cfg r u d st
    unfold dbGetDailyPlan
    split
    · cases r <;> rfl
    · rfl
  · intro cfg r p st
    unfold dbSaveDailyPlan
    split
    · cases r <;> rfl
    · rfl
  · intro cfg r u st
    unfold dbUpdateUserProfile
    split
    · cases r <;> rfl
    · rfl
  · rintro ⟨cr, ci⟩ r e st
    cases cr <;> cases ci <;> cases r <;>
      simp [dbResetPassword, exceptOk, authSet]
  · rintro ⟨cr, ci⟩ rp rd ms iso p st
    cases cr <;> cases ci <;> cases rp <;> try cases rd <;>
      simp [dbSocialLogin, exceptOk, authSet]
  · rintro ⟨cr, ci⟩ r st
    cases cr <;> cases ci <;> cases r <;>
      simp [dbLogout, exceptOk, authSet]
  · rintro ⟨cr, ci⟩ ra rd fid u st
    cases cr <;> cases ci <;> cases ra <;> (try cases rd) <;>
      by_cases h : (st.users.find? (fun v => v.email == u.email)).isSome = true <;>
      simp [dbRegisterUser, exceptOk, authSet, h]
  · rintro ⟨cr, ci⟩ ra iso e p st
    cases cr <;> cases ci <;> cases ra <;>
      by_cases hb : (e == "demo@example.com" && p == "password") = true <;>
      cases hf : st.users.find? (fun v => v.email == e && v.password == some p) <;>
      simp [dbLoginUser, exceptOk, authSet, hb, hf]

end TaskFlow
